import Mathlib

/-!
Verification of the shared-module registry and loader of
`src/engine/extensions/sharedModules/index.ts`.

Every definition below is a shallow embedding of the corresponding
TypeScript function; source line numbers are cited next to each one.
Strings are handled as `String`/`List Char`; JavaScript numbers that the
code uses as version components are modelled as `Nat` (they are produced
by `Number(...)` on digit segments and are never negative or fractional
on the paths the program exercises); comparator results are `Int`.
Asynchronous code is modelled by explicit sequencing: the source is
single-threaded and cooperative, so the value produced by an `async`
function is captured by a pure function, and temporal ordering inside
`loadModule` is captured by an explicit event trace.
-/

namespace SharedModules

/-! ### Version comparator (lines 207-208) -/

/-- A parsed version: the three numeric components produced by
`parseVersion` (line 207). -/
structure V3 where
  major : Nat
  minor : Nat
  patch : Nat
deriving DecidableEq, Repr

/-- Strip the leading non-digit run, modelling the
regular-expression replacement of a leading `[^0-9]*` run (line 207). -/
def stripLeadingNonDigits : List Char → List Char
  | [] => []
  | c :: cs => if c.isDigit then c :: cs else stripLeadingNonDigits cs

/-- Split a character list at each `.` character, modelling
`String.prototype.split` with separator `.` (line 207). -/
def splitOnDotAux : List Char → List Char → List (List Char)
  | [], acc => [acc.reverse]
  | c :: cs, acc => if c = '.' then acc.reverse :: splitOnDotAux cs [] else splitOnDotAux cs (c :: acc)

def splitOnDot (l : List Char) : List (List Char) :=
  splitOnDotAux l []

/-- Numeric value of a digit-only segment. -/
def digitsToNat (l : List Char) : Nat :=
  l.foldl (fun n c => n * 10 + (c.toNat - 48)) 0

/-- JavaScript `Number(segment) || 0` for one split segment (line 207):
a non-empty all-digit segment denotes its decimal value; an empty or
non-numeric segment gives `NaN` (or a missing component gives
`undefined`), which `|| 0` turns into `0`.  Exotic numeric forms that
`Number` also accepts (exponents, signs, surrounding whitespace) cannot
reach this point in a meaningful way and are mapped to `0`. -/
def parsePart (l : List Char) : Nat :=
  if l ≠ [] ∧ l.all Char.isDigit then digitsToNat l else 0

/-- The function `parseVersion` (line 207): strip the leading non-digit run, split on
`.`, convert up to three segments, missing segments default to `0`. -/
def parseVersion (v : String) : V3 :=
  let parts := splitOnDot (stripLeadingNonDigits v.toList)
  ⟨parsePart (parts.getD 0 []), parsePart (parts.getD 1 []), parsePart (parts.getD 2 [])⟩

/-- The function `compareVersions` (line 208): lexicographic difference over
(major, minor, patch), returned as a signed number. -/
def compareVersions (a b : String) : Int :=
  let pa := parseVersion a
  let pb := parseVersion b
  if pa.major ≠ pb.major then (pa.major : Int) - pb.major
  else if pa.minor ≠ pb.minor then (pa.minor : Int) - pb.minor
  else (pa.patch : Int) - pb.patch

/-- Lexicographic `x ≥ y` on parsed versions.  This is the spec-side
ordering used to restate comparator facts. -/
def vGe (x y : V3) : Prop :=
  y.major < x.major ∨ (x.major = y.major ∧ (y.minor < x.minor ∨ (x.minor = y.minor ∧ y.patch ≤ x.patch)))

instance (x y : V3) : Decidable (vGe x y) := by
  unfold vGe; exact inferInstance

/-! ### Range satisfaction (lines 189-205) -/

/-- Syntactic dispatch on a range string, shared by the code-side and
spec-side satisfaction predicates.  It mirrors the order of the checks
in `satisfies` (lines 190-203): `*`/`latest` first, then the `^`, `~`
and `>=` prefixes, and otherwise the exact-equality case. -/
inductive RangeForm where
  | anyR
  | caretR (rv : String)
  | tildeR (rv : String)
  | geR (rv : String)
  | exactR
deriving DecidableEq

def rangeForm (range : String) : RangeForm :=
  if range = "*" ∨ range = "latest" then .anyR
  else match range.toList with
    | '^' :: rest => .caretR (String.mk rest)
    | '~' :: rest => .tildeR (String.mk rest)
    | '>' :: '=' :: rest => .geR (String.mk rest)
    | _ => .exactR

/-- The function `satisfies` (lines 189-205), transcribed from the source: each
branch uses `parseVersion` / `compareVersions` exactly as the code
does. -/
def satisfies (version range : String) : Bool :=
  match rangeForm range with
  | .anyR => true
  | .caretR rv =>
    ((parseVersion rv).major == (parseVersion version).major)
      && decide (0 ≤ compareVersions version rv)
  | .tildeR rv =>
    ((parseVersion rv).major == (parseVersion version).major)
      && ((parseVersion rv).minor == (parseVersion version).minor)
      && decide (0 ≤ compareVersions version rv)
  | .geR rv => decide (0 ≤ compareVersions version rv)
  | .exactR => version == range

/-- Range satisfaction as the specification states it (spec section 4.1,
rules 1-5): `v ≥ rv` is the lexicographic order `vGe` on parsed
triples rather than a sign test on the comparator. -/
def satisfiesSpec (version range : String) : Bool :=
  match rangeForm range with
  | .anyR => true
  | .caretR rv =>
    ((parseVersion version).major == (parseVersion rv).major)
      && decide (vGe (parseVersion version) (parseVersion rv))
  | .tildeR rv =>
    ((parseVersion version).major == (parseVersion rv).major)
      && ((parseVersion version).minor == (parseVersion rv).minor)
      && decide (vGe (parseVersion version) (parseVersion rv))
  | .geR rv => decide (vGe (parseVersion version) (parseVersion rv))
  | .exactR => version == range

/-! ### Descriptor store (lines 4-13, 28-48, 182-187) -/

/-- The `format` tag of a descriptor (line 11). -/
inductive ModuleFormat where
  | esm
  | cjs
  | umd
deriving DecidableEq, Repr

/-- The record `SharedModuleDescriptor` (lines 4-13).  Optional fields model the
optional properties of the TypeScript record; a missing property is
`none` (the code only tests them for truthiness, and the truthy values
it stores are non-empty strings and non-empty behaviour). -/
structure SharedModuleDescriptor where
  name : String
  version : String
  cdnUrl : Option String := none
  localPath : Option String := none
  globalName : Option String := none
  dependencies : Option (List String) := none
  format : ModuleFormat
  lazyFlag : Option Bool := none
deriving DecidableEq, Repr

/-- One insertion step of the insertion sort used to model
`arr.sort((a, b) => compareVersions(b.version, a.version))` (line 37):
`d` is placed before the first element whose version is strictly
greater.  Any comparison sort with this comparator produces a list that
is a permutation of the input and descending by version; no theorem
below depends on the order of version ties, which is the only thing the
choice of algorithm can affect. -/
def insertDesc (d : SharedModuleDescriptor) : List SharedModuleDescriptor → List SharedModuleDescriptor
  | [] => [d]
  | e :: es =>
    if 0 ≤ compareVersions d.version e.version then d :: e :: es
    else e :: insertDesc d es

def sortDesc (l : List SharedModuleDescriptor) : List SharedModuleDescriptor :=
  l.foldr insertDesc []

/-- The per-name descriptor lists (`descriptors`, line 29).  An
unregistered name maps to `[]`, which is how the code's absent map
entry behaves in `findCompatibleDescriptor` (line 184). -/
def DescStore : Type := String → List SharedModuleDescriptor

def emptyStore : DescStore := fun _ => []

/-- The method `register` (lines 34-40): append the descriptor to its name's list
and re-sort the list descending by version. -/
def register (st : DescStore) (d : SharedModuleDescriptor) : DescStore :=
  fun n => if n = d.name then sortDesc (st d.name ++ [d]) else st n

/-- The method `registerAll` (lines 42-44). -/
def registerAll (st : DescStore) (l : List SharedModuleDescriptor) : DescStore :=
  l.foldl register st

/-- The method `findCompatibleDescriptor` (lines 182-187): first entry of the
name's list whose version satisfies the range. -/
def findCompatibleDescriptor (st : DescStore) (name range : String) :
    Option SharedModuleDescriptor :=
  (st name).find? (fun d => satisfies d.version range)

/-- The method `getAvailableModules` produces name/version views; only the version
list of one name is needed by the theorems. -/
def availableVersions (st : DescStore) (name : String) : List String :=
  (st name).map (fun d => d.version)

/-- The descending-sortedness invariant that `register` maintains
(spec section 3, ModuleDescriptor invariant). -/
def DescSorted (l : List SharedModuleDescriptor) : Prop :=
  l.Pairwise (fun a b => 0 ≤ compareVersions a.version b.version)

/-! ### Loaded-instance cache (lines 15-20, 30, 50-73, 168-180) -/

/-- The record `LoadedModule` (lines 15-20).  The opaque module handle is modelled
as a `Nat` identifier; `refCount` is an `Int` because the code floors it
with `Math.max(0, ...)` rather than relying on unsigned arithmetic. -/
structure LoadedModule where
  descriptor : SharedModuleDescriptor
  module : Nat
  loadedAt : Nat
  refCount : Int
deriving DecidableEq, Repr

/-- The `loaded` map (line 30) in insertion order: a JavaScript
`Map` iterates in insertion order, and `set` on an existing key keeps
its position.  Modelled as an association list. -/
abbrev LoadedCache : Type := List (String × LoadedModule)

/-- JavaScript `Map.prototype.set`: replace the value at the key in place, or
append a new entry. -/
def setKey : LoadedCache → String → LoadedModule → LoadedCache
  | [], k, v => [(k, v)]
  | (k0, v0) :: rest, k, v =>
    if k0 = k then (k, v) :: rest else (k0, v0) :: setKey rest k v

/-- The method `cacheModule` (lines 168-173): store a fresh instance keyed
`name@version` with reference count 1. -/
def cacheModule (l : LoadedCache) (d : SharedModuleDescriptor) (m : Nat) (now : Nat) : LoadedCache :=
  setKey l (d.name ++ "@" ++ d.version) ⟨d, m, now, 1⟩

/-- The per-entry test of `findCompatibleLoaded` (line 177): the key
starts with `name@` and the descriptor's version satisfies the range. -/
def loadedMatches (name range : String) (e : String × LoadedModule) : Bool :=
  (name ++ "@").toList.isPrefixOf e.1.toList
    && satisfies e.2.descriptor.version range

/-- The method `findCompatibleLoaded` (lines 175-180): first matching entry in the
cache's insertion order. -/
def findCompatibleLoaded (l : LoadedCache) (name range : String) : Option LoadedModule :=
  (l.find? (loadedMatches name range)).map Prod.snd

/-- The decrement performed by `release` (line 71). -/
def decRef (v : LoadedModule) : LoadedModule :=
  { v with refCount := max 0 (v.refCount - 1) }

/-- The increment performed by the cache-hit path of `require`
(line 53). -/
def incRef (v : LoadedModule) : LoadedModule :=
  { v with refCount := v.refCount + 1 }

/-- The method `release` (lines 68-73): decrement, floored at zero, the reference
count of the first cache entry matching the search of
`findCompatibleLoaded`; no entry is ever removed. -/
def release : LoadedCache → String → String → LoadedCache
  | [], _, _ => []
  | e :: rest, name, range =>
    if loadedMatches name range e then (e.1, decRef e.2) :: rest
    else e :: release rest name range

/-- The cache-hit step of `require` (lines 51-55): if a compatible
instance is loaded, increment its reference count and return its
handle; otherwise leave the cache unchanged. -/
def requireHit : LoadedCache → String → String → Option Nat × LoadedCache
  | [], _, _ => (none, [])
  | e :: rest, name, range =>
    if loadedMatches name range e then (some e.2.module, (e.1, incRef e.2) :: rest)
    else
      let (r, rest') := requireHit rest name range
      (r, e :: rest')

/-! ### The load procedure (lines 99-136) -/

/-- Outcome of invoking one registered resolver on `(name, version)`:
the promise it returns may reject (the code has no try/catch around the
`await` on line 108, so this models an exception escaping), or settle
with either a truthy module handle or a falsy result (`null`,
`undefined`), which the `if (res)` test on line 109 skips. -/
inductive ResolverOutcome where
  | throws (msg : String)
  | value (res : Option Nat)
deriving DecidableEq, Repr

def resolverIsThrow : ResolverOutcome → Bool
  | .throws _ => true
  | .value _ => false

/-- The environment a single `loadModule` run interacts with at its
suspension points: the recursive `require` of line 104, the registered
resolvers of line 107, `loadFromLocal` (line 114), `loadFromCdn`
(line 123) and the global-binding lookup of lines 130-132. -/
structure LoadEnv where
  requireDep : String → String → Except String Nat
  resolvers : List (String → String → ResolverOutcome)
  localLoad : SharedModuleDescriptor → Except String Nat
  cdnLoad : SharedModuleDescriptor → Except String Nat
  windowDefined : Bool
  globalVal : String → Option Nat

/-- Events of one `loadModule` run, in temporal order: the pure
sequencing of the embedding coincides with the await-ordering of the
single-threaded source. -/
inductive LoadEvent where
  | depRequire (name range : String)
  | resolverCall (idx : Nat)
  | localFetch
  | cdnFetch
  | globalLookup
deriving DecidableEq, Repr

def LoadEvent.isDep : LoadEvent → Bool
  | .depRequire _ _ => true
  | _ => false

/-- The dependency loop of lines 103-105: `await this.require(dep)`
for each listed dependency in order — the range argument defaults to
`*` (line 50) — stopping at the first rejection, which propagates. -/
def loadDeps (env : LoadEnv) : List String → List LoadEvent × Except String Unit
  | [] => ([], Except.ok ())
  | dep :: rest =>
    match env.requireDep dep "*" with
    | .error e => ([.depRequire dep "*"], .error e)
    | .ok _ =>
      let (tr, r) := loadDeps env rest
      (.depRequire dep "*" :: tr, r)

/-- Index and message of the first failing dependency `require`, if
any; used to state what `loadDeps` does. -/
def firstDepFailure (env : LoadEnv) : List String → Option (Nat × String)
  | [] => none
  | dep :: rest =>
    match env.requireDep dep "*" with
    | .error e => some (0, e)
    | .ok _ => (firstDepFailure env rest).map (fun p => (p.1 + 1, p.2))

/-- The resolver loop of lines 107-110: resolvers are awaited in
registration order; a truthy result is cached and returned (line 109),
a falsy result falls through to the next resolver, and a rejection
propagates out of `loadModule` uncaught.  The result is `none` when the
loop fell through to the built-in sources. -/
def runResolvers (name ver : String) :
    List (String → String → ResolverOutcome) → Nat →
    List LoadEvent × Option (Except String Nat)
  | [], _ => ([], none)
  | r :: rs, i =>
    match r name ver with
    | .throws msg => ([.resolverCall i], some (.error msg))
    | .value (some m) => ([.resolverCall i], some (.ok m))
    | .value none =>
      let (tr, res) := runResolvers name ver rs (i + 1)
      (.resolverCall i :: tr, res)

/-- The terminal error of line 135. -/
def couldNotLoadMsg (name : String) (d : SharedModuleDescriptor) : String :=
  "Could not load shared module " ++ name ++ "@" ++ d.version

/-- Lines 130-135: the global-binding fallback and the terminal
error. -/
def tryGlobal (env : LoadEnv) (name : String) (d : SharedModuleDescriptor)
    (tr : List LoadEvent) : List LoadEvent × Except String Nat :=
  match d.globalName with
  | some g =>
    if env.windowDefined then
      match env.globalVal g with
      | some m => (tr ++ [.globalLookup], .ok m)
      | none => (tr ++ [.globalLookup], .error (couldNotLoadMsg name d))
    else (tr, .error (couldNotLoadMsg name d))
  | none => (tr, .error (couldNotLoadMsg name d))

/-- Lines 121-128: the CDN fallback; a failed fetch is caught and
logged (line 126) and the chain proceeds. -/
def tryCdn (env : LoadEnv) (name : String) (d : SharedModuleDescriptor)
    (tr : List LoadEvent) : List LoadEvent × Except String Nat :=
  match d.cdnUrl with
  | some _ =>
    match env.cdnLoad d with
    | .ok m => (tr ++ [.cdnFetch], .ok m)
    | .error _ => tryGlobal env name d (tr ++ [.cdnFetch])
  | none => tryGlobal env name d tr

/-- Lines 112-119: the local-bundle fallback; a failed load is caught
and logged (line 117) and the chain proceeds. -/
def tryLocal (env : LoadEnv) (name : String) (d : SharedModuleDescriptor)
    (tr : List LoadEvent) : List LoadEvent × Except String Nat :=
  match d.localPath with
  | some _ =>
    match env.localLoad d with
    | .ok m => (tr ++ [.localFetch], .ok m)
    | .error _ => tryCdn env name d (tr ++ [.localFetch])
  | none => tryCdn env name d tr

/-- The source chain of lines 107-135 for a resolved descriptor: the
resolver loop, then local, CDN and global fallbacks in that fixed
order.  A successful step corresponds to `cacheModule` plus return. -/
def trySources (env : LoadEnv) (name : String) (d : SharedModuleDescriptor) :
    List LoadEvent × Except String Nat :=
  let (tr, res) := runResolvers name d.version env.resolvers 0
  match res with
  | some r => (tr, r)
  | none => tryLocal env name d tr

/-- The method `loadModule` (lines 99-136) as a traced computation: resolve the
descriptor, run the dependency loop, then the source chain. -/
def loadModuleT (env : LoadEnv) (st : DescStore) (name range : String) :
    List LoadEvent × Except String Nat :=
  match findCompatibleDescriptor st name range with
  | none => ([], .error ("No compatible descriptor for " ++ name ++ "@" ++ range))
  | some d =>
    match d.dependencies with
    | some deps =>
      let (tr, r) := loadDeps env deps
      match r with
      | .error e => (tr, .error e)
      | .ok _ =>
        let (tr2, res) := trySources env name d
        (tr ++ tr2, res)
    | none => trySources env name d

def exceptIsError : Except String Nat → Bool
  | .error _ => true
  | .ok _ => false

/-- Every registered resolver settles falsy for this `(name, version)`
pair. -/
def resolversNoneB (env : LoadEnv) (name : String) (d : SharedModuleDescriptor) : Bool :=
  env.resolvers.all (fun r => r name d.version == ResolverOutcome.value none)

/-- The local-bundle source is absent or fails. -/
def localFailB (env : LoadEnv) (d : SharedModuleDescriptor) : Bool :=
  (d.localPath == none) || exceptIsError (env.localLoad d)

/-- The CDN source is absent or fails. -/
def cdnFailB (env : LoadEnv) (d : SharedModuleDescriptor) : Bool :=
  (d.cdnUrl == none) || exceptIsError (env.cdnLoad d)

/-- The global-binding source is absent, unavailable or falsy. -/
def globFailB (env : LoadEnv) (d : SharedModuleDescriptor) : Bool :=
  match d.globalName with
  | none => true
  | some g => !env.windowDefined || (env.globalVal g == none)

/-- Exhaustion of the whole source chain, stated directly on the
environment and descriptor: every resolver settles falsy, the local and
CDN sources are absent or fail, and the global binding is absent,
unavailable or falsy. -/
def allSourcesFailB (env : LoadEnv) (name : String) (d : SharedModuleDescriptor) : Bool :=
  resolversNoneB env name d && localFailB env d && cdnFailB env d && globFailB env d

/-! ### Concurrent-require scenario (lines 50-66, spec section 8) -/

/-- What the synchronous prefix of `require(name, range)` (lines 50-59)
does before its first suspension point. -/
inductive RequireOutcome where
  | hit (m : Nat)
  | awaitPending (key : String)
  | startedLoad (key : String)
  | noDescriptor
deriving DecidableEq, Repr

/-- The registry state the scenario observes: the `loaded` cache
(line 30), the keys of the `loading` map (line 31), and a count of
source-loading attempts (invocations of a resolver or of a built-in
fetch). -/
structure CoState where
  loaded : LoadedCache
  loadingKeys : List String
  attempts : Nat
deriving DecidableEq, Repr

/-- The synchronous prefix of `require(name, range)` (lines 50-59) for
a registry whose descriptors list no dependencies and which has at
least one registered resolver — the configuration of the concurrent
scenario.  On a cache hit (lines 51-55) the reference count is bumped
and the handle returned.  On a pending-load hit (line 57) the caller is
handed the pending promise and the state is untouched.  Otherwise
`loadModule` (line 58) runs synchronously through
`findCompatibleDescriptor` (line 100), the empty dependency loop
(lines 103-105) and the invocation of the first resolver (line 108) —
the first source-loading attempt — before suspending at its first
`await`; then line 59 registers the pending load under `name@range`. -/
def requireSync (store : DescStore) (s : CoState) (name range : String) :
    RequireOutcome × CoState :=
  match requireHit s.loaded name range with
  | (some m, l') => (.hit m, { s with loaded := l' })
  | (none, _) =>
    let key := name ++ "@" ++ range
    if s.loadingKeys.contains key then (.awaitPending key, s)
    else
      match findCompatibleDescriptor store name range with
      | none => (.noDescriptor, s)
      | some _ =>
        (.startedLoad key,
          { s with attempts := s.attempts + 1, loadingKeys := s.loadingKeys ++ [key] })

/-- The descriptor of the scenario's module `x`. -/
def dX : SharedModuleDescriptor :=
  { name := "x", version := "1.0.0", format := ModuleFormat.esm }

def c3Store : DescStore := register emptyStore dX

def c3s0 : CoState := ⟨[], [], 0⟩

/-- Caller A's synchronous run of `require("x", "*")`: it misses the
cache, starts the load, makes the single resolver invocation and
registers the pending key. -/
def c3A : RequireOutcome × CoState := requireSync c3Store c3s0 "x" "*"

/-- Caller B's synchronous run, scheduled before the resolver settles:
it misses the cache (nothing is loaded yet) and finds the pending key,
so it is handed the same pending promise (line 57) and changes
nothing. -/
def c3B : RequireOutcome × CoState := requireSync c3Store c3A.2 "x" "*"

/-- The single pending load's resolver settles with handle 42;
line 109 then calls `cacheModule` (lines 168-172), which stores the
instance with reference count 1, and the shared promise resolves with
the handle. -/
def c3AfterLoad : CoState :=
  { c3B.2 with loaded := cacheModule c3B.2.loaded dX 42 0 }

/-- Both awaiting callers receive the promise's value 42; caller A's
`finally` (line 64) removes the pending key.  Caller B returned the
promise itself (line 57) and runs no code of its own after it
settles. -/
def c3Final : CoState :=
  { c3AfterLoad with loadingKeys := c3AfterLoad.loadingKeys.erase "x@*" }

/-- The value both callers receive: the resolution value of the one
shared promise. -/
def c3ResultA : Nat := 42
def c3ResultB : Nat := c3ResultA

/-- The reference count of the cached `x@1.0.0` instance at the end of
the scenario (`-1` would flag a missing entry). -/
def c3RefCountX : Int :=
  ((c3Final.loaded.find? (fun e => e.1 = "x@1.0.0")).map (fun e => e.2.refCount)).getD (-1)

/-! ### Batch requires (lines 22-26, 75-89) -/

/-- The record `ModuleRequest` (lines 22-26); a missing `optional` property is
falsy, i.e. `false`. -/
structure ModuleRequest where
  name : String
  versionRange : String
  optionalFlag : Bool := false
deriving DecidableEq, Repr

/-- The method `requireAll` (lines 75-89), with the outcomes of the inner
`require` calls supplied by `oracle`.  `Promise.all` issues the calls
concurrently; since each task only writes its own `results` entry and
the batches the claims speak about have pairwise distinct names, the
observable result — the returned map on success, rejection if any
non-optional `require` fails — is captured by this sequential fold. -/
def setNat : List (String × Nat) → String → Nat → List (String × Nat)
  | [], k, v => [(k, v)]
  | (k0, v0) :: rest, k, v =>
    if k0 = k then (k, v) :: rest else (k0, v0) :: setNat rest k v

def requireAll (oracle : String → String → Except String Nat) :
    List ModuleRequest → List (String × Nat) → Except String (List (String × Nat))
  | [], acc => .ok acc
  | r :: rest, acc =>
    match oracle r.name r.versionRange with
    | .ok m => requireAll oracle rest (setNat acc r.name m)
    | .error e =>
      if r.optionalFlag then requireAll oracle rest acc
      else .error e

/-- The oracle of the spec's batch example: module `x` fails to load,
module `y` loads with handle 5. -/
def oracle6 : String → String → Except String Nat :=
  fun name _ => if name = "y" then .ok 5 else .error "x did not load"

def exceptIsOkL : Except String (List (String × Nat)) → Bool
  | .ok _ => true
  | .error _ => false

/-! ### Import rewriting (lines 231-249) -/

def lbrace : Char := Char.ofNat 123
def rbrace : Char := Char.ofNat 125
def squote : Char := Char.ofNat 39

/-- The JavaScript regular-expression class `\s`, restricted to its
ASCII members (the sources the loader rewrites are ASCII program
text). -/
def isJsWs (c : Char) : Bool :=
  c = ' ' || c = '\t' || c = '\n' || c = '\r' || c = '\x0b' || c = '\x0c'

/-- The class `\w`. -/
def isWordChar (c : Char) : Bool :=
  c.isAlphanum || c = '_'

/-- The class `[\x27"]` used around the module name. -/
def isQuote (c : Char) : Bool :=
  c = '"' || c = squote

def eatLit : List Char → List Char → Option (List Char)
  | [], l => some l
  | _ :: _, [] => none
  | c :: cs, x :: xs => if x = c then eatLit cs xs else none

def eatChar (c : Char) : List Char → Option (List Char)
  | [] => none
  | x :: xs => if x = c then some xs else none

/-- Pattern piece `\s+`, greedy. -/
def eatWs1 : List Char → Option (List Char)
  | [] => none
  | c :: cs => if isJsWs c then some (cs.dropWhile isJsWs) else none

/-- Pattern piece `\s*`, greedy. -/
def eatWs0 (l : List Char) : List Char :=
  l.dropWhile isJsWs

/-- Pattern piece `(\w+)`, greedy, returning the capture and the rest. -/
def eatWord1 : List Char → Option (List Char × List Char)
  | [] => none
  | c :: cs =>
    if isWordChar c then
      some ((c :: cs).takeWhile isWordChar, (c :: cs).dropWhile isWordChar)
    else none

/-- Pattern piece `([^\x7d]+)`, greedy. -/
def eatNonRBrace1 : List Char → Option (List Char × List Char)
  | [] => none
  | c :: cs =>
    if c = rbrace then none
    else
      some ((c :: cs).takeWhile (fun x => !(x == rbrace)),
            (c :: cs).dropWhile (fun x => !(x == rbrace)))

/-- Pattern piece matching one quote character, single or double. -/
def eatQuote : List Char → Option (List Char)
  | [] => none
  | c :: cs => if isQuote c then some cs else none

/-- Pattern piece `;?`, greedy. -/
def eatSemiOpt : List Char → List Char
  | ';' :: xs => xs
  | l => l

/-- The default-import regular expression of line 242.  In all four
patterns the character classes consumed by a greedy quantifier are
disjoint from what must follow, so maximal-munch matching coincides
with the backtracking regular-expression semantics. -/
def matchDefaultImport (name : List Char) (l : List Char) : Option (List Char × List Char) := do
  let l ← eatLit "import".toList l
  let l ← eatWs1 l
  let (cap, l) ← eatWord1 l
  let l ← eatWs1 l
  let l ← eatLit "from".toList l
  let l ← eatWs1 l
  let l ← eatQuote l
  let l ← eatLit name l
  let l ← eatQuote l
  some (cap, eatSemiOpt l)

/-- The named-bindings regular expression of line 243. -/
def matchNamedImport (name : List Char) (l : List Char) : Option (List Char × List Char) := do
  let l ← eatLit "import".toList l
  let l ← eatWs1 l
  let l ← eatChar lbrace l
  let (cap, l) ← eatNonRBrace1 l
  let l ← eatChar rbrace l
  let l ← eatWs1 l
  let l ← eatLit "from".toList l
  let l ← eatWs1 l
  let l ← eatQuote l
  let l ← eatLit name l
  let l ← eatQuote l
  some (cap, eatSemiOpt l)

/-- The namespace-import regular expression of line 244. -/
def matchNamespaceImport (name : List Char) (l : List Char) : Option (List Char × List Char) := do
  let l ← eatLit "import".toList l
  let l ← eatWs1 l
  let l ← eatChar '*' l
  let l ← eatWs1 l
  let l ← eatLit "as".toList l
  let l ← eatWs1 l
  let (cap, l) ← eatWord1 l
  let l ← eatWs1 l
  let l ← eatLit "from".toList l
  let l ← eatWs1 l
  let l ← eatQuote l
  let l ← eatLit name l
  let l ← eatQuote l
  some (cap, eatSemiOpt l)

/-- The combined default-plus-named regular expression of line 245. -/
def matchCombinedImport (name : List Char) (l : List Char) :
    Option ((List Char × List Char) × List Char) := do
  let l ← eatLit "import".toList l
  let l ← eatWs1 l
  let (c1, l) ← eatWord1 l
  let l := eatWs0 l
  let l ← eatChar ',' l
  let l := eatWs0 l
  let l ← eatChar lbrace l
  let (c2, l) ← eatNonRBrace1 l
  let l ← eatChar rbrace l
  let l ← eatWs1 l
  let l ← eatLit "from".toList l
  let l ← eatWs1 l
  let l ← eatQuote l
  let l ← eatLit name l
  let l ← eatQuote l
  some ((c1, c2), eatSemiOpt l)

/-- Replacement text of line 242: `const $1 = window.G.default || window.G;`. -/
def renderDefault (gk cap : List Char) : List Char :=
  "const ".toList ++ cap ++ " = window.".toList ++ gk
    ++ ".default || window.".toList ++ gk ++ ";".toList

/-- Replacement text of line 243: `const \x7b$1\x7d = window.G;`. -/
def renderNamed (gk cap : List Char) : List Char :=
  "const ".toList ++ [lbrace] ++ cap ++ [rbrace] ++ " = window.".toList ++ gk ++ ";".toList

/-- Replacement text of line 244: `const $1 = window.G;`. -/
def renderNamespace (gk cap : List Char) : List Char :=
  "const ".toList ++ cap ++ " = window.".toList ++ gk ++ ";".toList

/-- Replacement text of line 245. -/
def renderCombined (gk c1 c2 : List Char) : List Char :=
  renderDefault gk c1 ++ " ".toList ++ renderNamed gk c2

/-- One global-flag `replace` pass: scan left to right, rewrite each
leftmost match and continue after it.  Every pattern consumes at least
the literal `import`, so fuel equal to the input length suffices and
the fuel case never fires on the runs the theorems evaluate. -/
def replaceScan (m : List Char → Option (List Char × List Char)) :
    Nat → List Char → List Char
  | _, [] => []
  | 0, l => l
  | fuel + 1, c :: cs =>
    match m (c :: cs) with
    | some (rep, rest) => rep ++ replaceScan m fuel rest
    | none => c :: replaceScan m fuel cs

/-- Does any position of `l` start a match of `m`? -/
def existsMatch {α : Type} (m : List Char → Option α) : List Char → Bool
  | [] => false
  | c :: cs => (m (c :: cs)).isSome || existsMatch m cs

/-- The loop body of lines 241-248 for one resolved module: the four
patterns are applied one after the other, each as a full global-replace
pass over the result of the previous one. -/
def rewriteForModule (name gk src : String) : String :=
  let n := name.toList
  let g := gk.toList
  let t1 := replaceScan
    (fun l => (matchDefaultImport n l).map (fun p => (renderDefault g p.1, p.2)))
    src.toList.length src.toList
  let t2 := replaceScan
    (fun l => (matchNamedImport n l).map (fun p => (renderNamed g p.1, p.2)))
    t1.length t1
  let t3 := replaceScan
    (fun l => (matchNamespaceImport n l).map (fun p => (renderNamespace g p.1, p.2)))
    t2.length t2
  let t4 := replaceScan
    (fun l => (matchCombinedImport n l).map (fun p => (renderCombined g p.1.1 p.1.2, p.2)))
    t3.length t3
  String.mk t4

/-- True when some position of `src` matches one of the four import
patterns for `name`. -/
def hasImportMatch (name src : List Char) : Bool :=
  existsMatch (matchDefaultImport name) src
    || existsMatch (matchNamedImport name) src
    || existsMatch (matchNamespaceImport name) src
    || existsMatch (matchCombinedImport name) src

/-! ### Global binding names (lines 237-239) -/

/-- The derivation of line 238: replace every character outside
`[a-zA-Z0-9]` with `_`, then uppercase.  The two steps commute into one
character map because `_` is its own uppercase form. -/
def normalizeModName (name : String) : String :=
  String.mk (name.toList.map (fun c => if c.isAlphanum then c.toUpper else '_'))

/-- The template literal of line 238,
`__PYXIS_SHARED_<normalized>__`, as the concatenation of its three
character runs. -/
def globalKey (name : String) : String :=
  String.mk ("__PYXIS_SHARED_".toList ++ (normalizeModName name).toList ++ "__".toList)

/-! ### JavaScript value semantics for the rewritten bindings -/

/-- Enough of the JavaScript value model to state what the rewritten
binding evaluates to: property lookup and truthiness.  (`NaN` does not
arise from the handles the loader stores and is not modelled.) -/
inductive JSVal where
  | undefined
  | null
  | bool (b : Bool)
  | num (n : Int)
  | str (s : String)
  | obj (fields : List (String × JSVal))

def lookupField (k : String) : List (String × JSVal) → Option JSVal
  | [] => none
  | (k0, v) :: rest => if k0 = k then some v else lookupField k rest

/-- Property access `v[k]`; absent properties read as `undefined`
(property access on `null`/`undefined` itself throws in JavaScript, but
the loader only applies it to module handles it has stored). -/
def getProp (v : JSVal) (k : String) : JSVal :=
  match v with
  | .obj fields => (lookupField k fields).getD .undefined
  | _ => .undefined

def truthy : JSVal → Bool
  | .undefined => false
  | .null => false
  | .bool b => b
  | .num n => !(n == 0)
  | .str s => !(s == "")
  | .obj _ => true

/-- JavaScript `a || b`. -/
def jsOr (a b : JSVal) : JSVal :=
  if truthy a then a else b

/-- Value of the local binding produced by the default-import rewrite:
`window.G.default || window.G` evaluated at `g = window.G`. -/
def evalDefaultBinding (g : JSVal) : JSVal :=
  jsOr (getProp g "default") g

/-- Values bound by the destructuring declaration the named-import
rewrite produces: each requested member is read off the handle. -/
def evalDestructure (g : JSVal) (members : List String) : List (String × JSVal) :=
  members.map (fun m => (m, getProp g m))

/-! ### Concrete instances used by witnesses and counterexamples -/

def dx100 : SharedModuleDescriptor :=
  { name := "x", version := "1.0.0", format := ModuleFormat.esm }

def dx200 : SharedModuleDescriptor :=
  { name := "x", version := "2.0.0", format := ModuleFormat.esm }

/-- Registration order: the lower version first, so descending order is
established by the re-sort, not by the input order. -/
def ds1 : List SharedModuleDescriptor := [dx100, dx200]

/-- Loaded instance of `x@1.0.0`, cached before `x@2.0.0`. -/
def demoV1 : LoadedModule := ⟨dx100, 10, 0, 1⟩

def demoV2 : LoadedModule := ⟨dx200, 20, 1, 1⟩

def demoLoaded : LoadedCache := [("x@1.0.0", demoV1), ("x@2.0.0", demoV2)]

def demoW : LoadedModule :=
  ⟨{ name := "y", version := "1.0.0", format := ModuleFormat.esm }, 7, 0, 1⟩

/-- Descriptor with three dependencies, of which the second fails. -/
def d4 : SharedModuleDescriptor :=
  { name := "m", version := "1.0.0", dependencies := some ["a", "b", "c"],
    format := ModuleFormat.esm }

def st4 : DescStore := register emptyStore d4

def env4 : LoadEnv :=
  ⟨fun dep _ => if dep = "a" then .ok 1 else .error ("dep " ++ dep ++ " failed"),
   [], fun _ => .error "unused", fun _ => .error "unused", false, fun _ => none⟩

/-- Descriptor with a local bundle that would load, used to show that a
throwing resolver aborts the whole load before the local source is
tried. -/
def d5 : SharedModuleDescriptor :=
  { name := "m", version := "1.0.0",
    localPath := some "/shared-modules/m/1.0.0/index.esm.js",
    format := ModuleFormat.esm }

def env5 : LoadEnv :=
  ⟨fun _ _ => .error "unused",
   [fun _ _ => ResolverOutcome.throws "resolver boom"],
   fun _ => .ok 7, fun _ => .error "unused", false, fun _ => none⟩

/-- Descriptor with no sources at all, and an environment whose single
resolver settles falsy: the whole chain is exhausted. -/
def d5w : SharedModuleDescriptor :=
  { name := "m", version := "1.0.0", format := ModuleFormat.esm }

def env5w : LoadEnv :=
  ⟨fun _ _ => .error "unused",
   [fun _ _ => ResolverOutcome.value none],
   fun _ => .error "nope", fun _ => .error "nope", false, fun _ => none⟩

/-! ### Comparator facts -/

theorem compareVersions_nonneg_iff (a b : String) :
    0 ≤ compareVersions a b ↔ vGe (parseVersion a) (parseVersion b) := by
  unfold compareVersions vGe
  dsimp only
  split_ifs <;> omega

theorem vGe_refl (x : V3) : vGe x x := by
  unfold vGe; omega

theorem vGe_trans {x y z : V3} (h1 : vGe x y) (h2 : vGe y z) : vGe x z := by
  unfold vGe at *; omega

theorem vGe_total (x y : V3) : vGe x y ∨ vGe y x := by
  unfold vGe; omega

theorem compareVersions_trans {a b c : String}
    (h1 : 0 ≤ compareVersions a b) (h2 : 0 ≤ compareVersions b c) :
    0 ≤ compareVersions a c := by
  rw [compareVersions_nonneg_iff] at *
  exact vGe_trans h1 h2

theorem compareVersions_total (a b : String) :
    0 ≤ compareVersions a b ∨ 0 ≤ compareVersions b a := by
  rw [compareVersions_nonneg_iff, compareVersions_nonneg_iff]
  exact vGe_total _ _

theorem compareVersions_self_nonneg (a : String) : 0 ≤ compareVersions a a := by
  rw [compareVersions_nonneg_iff]
  exact vGe_refl _

/-! ### Range satisfaction agrees with the spec's rules -/

theorem satisfies_eq_spec (v r : String) : satisfies v r = satisfiesSpec v r := by
  unfold satisfies satisfiesSpec
  cases rangeForm r with
  | anyR => rfl
  | exactR => rfl
  | geR rv =>
    rw [decide_eq_decide]
    exact compareVersions_nonneg_iff v rv
  | caretR rv =>
    rw [Bool.eq_iff_iff]
    simp only [Bool.and_eq_true, beq_iff_eq, decide_eq_true_eq, compareVersions_nonneg_iff]
    exact ⟨fun ⟨h1, h2⟩ => ⟨h1.symm, h2⟩, fun ⟨h1, h2⟩ => ⟨h1.symm, h2⟩⟩
  | tildeR rv =>
    rw [Bool.eq_iff_iff]
    simp only [Bool.and_eq_true, beq_iff_eq, decide_eq_true_eq, compareVersions_nonneg_iff]
    exact ⟨fun ⟨⟨h1, h2⟩, h3⟩ => ⟨⟨h1.symm, h2.symm⟩, h3⟩,
           fun ⟨⟨h1, h2⟩, h3⟩ => ⟨⟨h1.symm, h2.symm⟩, h3⟩⟩

/-- C2: the range-satisfaction predicate follows the spec's five rules
for every candidate version and range — `*`/`latest` accept everything;
`^rv` requires an equal major and `v ≥ rv`; `~rv` additionally an equal
minor; `>=rv` only `v ≥ rv`; any other range only the string-equal
version — and in particular it decides the spec's concrete examples as
stated. -/
theorem c2_satisfies_rules :
    (∀ v r, satisfies v r = satisfiesSpec v r)
    ∧ (∀ v, satisfies v "*" = true ∧ satisfies v "latest" = true)
    ∧ satisfies "1.2.0" "^1.2.0" = true
    ∧ satisfies "1.9.9" "^1.2.0" = true
    ∧ satisfies "2.0.0" "^1.2.0" = false
    ∧ satisfies "0.9.9" "^1.2.0" = false
    ∧ satisfies "1.2.0" "~1.2.0" = true
    ∧ satisfies "1.2.9" "~1.2.0" = true
    ∧ satisfies "1.3.0" "~1.2.0" = false
    ∧ satisfies "1.2.0" ">=1.2.0" = true
    ∧ satisfies "2.0.0" ">=1.2.0" = true
    ∧ satisfies "1.1.9" ">=1.2.0" = false
    ∧ satisfies "1.2.3" "1.2.3" = true
    ∧ satisfies "1.2.3" "v1.2.3" = false := by
  refine ⟨satisfies_eq_spec, fun v => ⟨rfl, rfl⟩, ?_⟩
  decide

/-! ### The descriptor store keeps lists descending and serves the
newest compatible version -/

theorem mem_insertDesc {d a : SharedModuleDescriptor} {l : List SharedModuleDescriptor} :
    a ∈ insertDesc d l ↔ a = d ∨ a ∈ l := by
  induction l with
  | nil => simp [insertDesc]
  | cons e es ih =>
    unfold insertDesc
    split_ifs with h
    · simp [List.mem_cons]
    · simp only [List.mem_cons, ih]
      tauto

theorem sorted_insertDesc {d : SharedModuleDescriptor} {l : List SharedModuleDescriptor}
    (h : DescSorted l) : DescSorted (insertDesc d l) := by
  induction l with
  | nil => simp [insertDesc, DescSorted]
  | cons e es ih =>
    rcases List.pairwise_cons.mp h with ⟨he, hes⟩
    unfold insertDesc
    split_ifs with hd
    · refine List.pairwise_cons.mpr ⟨?_, h⟩
      intro x hx
      rcases List.mem_cons.mp hx with rfl | hx
      · exact hd
      · exact compareVersions_trans hd (he x hx)
    · refine List.pairwise_cons.mpr ⟨?_, ih hes⟩
      intro x hx
      rcases mem_insertDesc.mp hx with rfl | hx
      · rcases compareVersions_total x.version e.version with h1 | h1
        · exact absurd h1 hd
        · exact h1
      · exact he x hx

theorem mem_sortDesc {a : SharedModuleDescriptor} {l : List SharedModuleDescriptor} :
    a ∈ sortDesc l ↔ a ∈ l := by
  induction l with
  | nil => simp [sortDesc]
  | cons e es ih =>
    show a ∈ insertDesc e (sortDesc es) ↔ _
    rw [mem_insertDesc, ih]
    simp [List.mem_cons]

theorem sorted_sortDesc (l : List SharedModuleDescriptor) : DescSorted (sortDesc l) := by
  induction l with
  | nil => exact List.Pairwise.nil
  | cons e es ih => exact sorted_insertDesc ih

theorem register_mem {st : DescStore} {d a : SharedModuleDescriptor} {n : String} :
    a ∈ register st d n ↔ a ∈ st n ∨ (a = d ∧ n = d.name) := by
  unfold register
  split_ifs with h
  · subst h
    rw [mem_sortDesc]
    simp [List.mem_append]
  · simp only [iff_self_or]
    rintro ⟨-, rfl⟩
    exact absurd rfl h

theorem registerAll_mem {ds : List SharedModuleDescriptor} :
    ∀ {st : DescStore} {n : String} {a : SharedModuleDescriptor},
      a ∈ registerAll st ds n ↔ a ∈ st n ∨ (a ∈ ds ∧ a.name = n) := by
  induction ds with
  | nil => intro st n a; simp [registerAll]
  | cons d rest ih =>
    intro st n a
    show a ∈ registerAll (register st d) rest n ↔ _
    rw [ih, register_mem]
    constructor
    · rintro ((h | ⟨rfl, rfl⟩) | ⟨h1, h2⟩)
      · exact Or.inl h
      · exact Or.inr ⟨List.mem_cons_self _ _, rfl⟩
      · exact Or.inr ⟨List.mem_cons_of_mem _ h1, h2⟩
    · rintro (h | ⟨h1, h2⟩)
      · exact Or.inl (Or.inl h)
      · rcases List.mem_cons.mp h1 with rfl | h1
        · exact Or.inl (Or.inr ⟨rfl, h2.symm⟩)
        · exact Or.inr ⟨h1, h2⟩

theorem register_sorted {st : DescStore} {d : SharedModuleDescriptor} {n : String}
    (h : DescSorted (st n)) : DescSorted (register st d n) := by
  unfold register
  split_ifs with hn
  · exact sorted_sortDesc _
  · exact h

theorem registerAll_sorted {ds : List SharedModuleDescriptor} :
    ∀ {st : DescStore} {n : String}, DescSorted (st n) → DescSorted (registerAll st ds n) := by
  induction ds with
  | nil => intro st n h; exact h
  | cons d rest ih =>
    intro st n h
    exact ih (register_sorted h)

theorem registerAll_empty_sorted (ds : List SharedModuleDescriptor) (n : String) :
    DescSorted (registerAll emptyStore ds n) :=
  registerAll_sorted List.Pairwise.nil

theorem find?_max {l : List SharedModuleDescriptor} {range : String}
    {d : SharedModuleDescriptor} (hs : DescSorted l)
    (h : l.find? (fun x => satisfies x.version range) = some d) :
    satisfies d.version range = true ∧ d ∈ l ∧
      ∀ d' ∈ l, satisfies d'.version range = true →
        0 ≤ compareVersions d.version d'.version := by
  induction l with
  | nil => simp [List.find?] at h
  | cons e es ih =>
    rcases List.pairwise_cons.mp hs with ⟨he, hes⟩
    by_cases hp : satisfies e.version range = true
    · rw [(List.find?_cons_of_pos es hp :
        List.find? (fun x => satisfies x.version range) (e :: es) = some e)] at h
      cases h
      refine ⟨hp, List.mem_cons_self _ _, ?_⟩
      intro d' hd' _
      rcases List.mem_cons.mp hd' with rfl | hd'
      · exact compareVersions_self_nonneg _
      · exact he d' hd'
    · rw [(List.find?_cons_of_neg es hp :
        List.find? (fun x => satisfies x.version range) (e :: es)
          = List.find? (fun x => satisfies x.version range) es)] at h
      rcases ih hes h with ⟨h1, h2, h3⟩
      refine ⟨h1, List.mem_cons_of_mem _ h2, ?_⟩
      intro d' hd' hsat
      rcases List.mem_cons.mp hd' with rfl | hd'
      · exact absurd hsat hp
      · exact h3 d' hd' hsat

/-- C1: for a store built by any sequence of `register` calls,
`findCompatibleDescriptor` returns a registered descriptor of the
requested name whose version satisfies the range and is
highest-versioned among all satisfying registrations of that name
(never a lower one when a higher one qualifies), and it returns absent
exactly when the name is unknown or no registered version of it
satisfies the range; this rests on `register` keeping each name's list
sorted descending and the lookup taking the first satisfying entry. -/
theorem c1_findCompatibleDescriptor_newest (ds : List SharedModuleDescriptor)
    (name range : String) :
    (∀ d, findCompatibleDescriptor (registerAll emptyStore ds) name range = some d →
        d ∈ ds ∧ d.name = name ∧ satisfies d.version range = true ∧
        ∀ d' ∈ ds, d'.name = name → satisfies d'.version range = true →
          0 ≤ compareVersions d.version d'.version)
    ∧ (findCompatibleDescriptor (registerAll emptyStore ds) name range = none ↔
        ∀ d ∈ ds, d.name = name → satisfies d.version range = false) := by
  constructor
  · intro d h
    rcases find?_max (registerAll_empty_sorted ds name) h with ⟨h1, h2, h3⟩
    rcases registerAll_mem.mp h2 with h0 | ⟨hmem, hname⟩
    · exact absurd h0 (List.not_mem_nil _)
    · refine ⟨hmem, hname, h1, ?_⟩
      intro d' hd' hn hsat
      exact h3 d' (registerAll_mem.mpr (Or.inr ⟨hd', hn⟩)) hsat
  · unfold findCompatibleDescriptor
    rw [List.find?_eq_none]
    constructor
    · intro h d hd hn
      have := h d (registerAll_mem.mpr (Or.inr ⟨hd, hn⟩))
      simpa using this
    · intro h x hx
      rcases registerAll_mem.mp hx with h0 | ⟨h1, h2⟩
      · exact absurd h0 (List.not_mem_nil _)
      · simpa using h x h1 h2

/-- Witness for C1: with `x@1.0.0` registered before `x@2.0.0`, the
lookup under `*` returns the `2.0.0` descriptor, which the theorem then
shows is not lower-versioned than the satisfying `1.0.0`
registration. -/
theorem c1_witness : (0 : Int) ≤ compareVersions "2.0.0" "1.0.0" :=
  ((c1_findCompatibleDescriptor_newest ds1 "x" "*").1 dx200 (by decide)).2.2.2
    dx100 (by decide) rfl (by decide)

/-! ### Release and the loaded-instance search -/

theorem release_keys (l : LoadedCache) (name range : String) :
    (release l name range).map Prod.fst = l.map Prod.fst := by
  induction l with
  | nil => rfl
  | cons e rest ih =>
    unfold release
    split_ifs with h
    · rfl
    · simpa using ih

theorem decRef_nonneg (v : LoadedModule) : 0 ≤ (decRef v).refCount :=
  le_max_left 0 _

theorem release_refCounts (l : LoadedCache) (name range : String)
    (h0 : ∀ e ∈ l, 0 ≤ e.2.refCount) :
    ∀ e ∈ release l name range, 0 ≤ e.2.refCount := by
  induction l with
  | nil => intro e he; simp [release] at he
  | cons e0 rest ih =>
    unfold release
    split_ifs with h
    · intro e he
      rcases List.mem_cons.mp he with rfl | he
      · exact decRef_nonneg _
      · exact h0 e (List.mem_cons_of_mem _ he)
    · intro e he
      rcases List.mem_cons.mp he with rfl | he
      · exact h0 e (List.mem_cons_self _ _)
      · exact ih (fun x hx => h0 x (List.mem_cons_of_mem _ hx)) e he

theorem release_of_none (l : LoadedCache) (name range : String)
    (h : findCompatibleLoaded l name range = none) :
    release l name range = l := by
  induction l with
  | nil => rfl
  | cons e rest ih =>
    unfold findCompatibleLoaded at h ih
    unfold release
    by_cases hm : loadedMatches name range e = true
    · rw [(List.find?_cons_of_pos rest hm :
        List.find? (loadedMatches name range) (e :: rest) = some e)] at h
      simp at h
    · rw [(List.find?_cons_of_neg rest hm :
        List.find? (loadedMatches name range) (e :: rest)
          = List.find? (loadedMatches name range) rest)] at h
      rw [if_neg hm]
      rw [ih h]

theorem release_of_some (l : LoadedCache) (name range : String) (v : LoadedModule)
    (h : findCompatibleLoaded l name range = some v) :
    ∃ l₁ k l₂, l = l₁ ++ (k, v) :: l₂
      ∧ (∀ e ∈ l₁, loadedMatches name range e = false)
      ∧ release l name range = l₁ ++ (k, decRef v) :: l₂ := by
  induction l with
  | nil => simp [findCompatibleLoaded, List.find?] at h
  | cons e rest ih =>
    unfold findCompatibleLoaded at h ih
    by_cases hm : loadedMatches name range e = true
    · rw [(List.find?_cons_of_pos rest hm :
        List.find? (loadedMatches name range) (e :: rest) = some e)] at h
      simp only [Option.map_some', Option.some.injEq] at h
      refine ⟨[], e.1, rest, ?_, ?_, ?_⟩
      · rw [← h]; rfl
      · intro x hx; simp at hx
      · unfold release
        rw [if_pos hm, ← h]
        rfl
    · rw [(List.find?_cons_of_neg rest hm :
        List.find? (loadedMatches name range) (e :: rest)
          = List.find? (loadedMatches name range) rest)] at h
      rcases ih h with ⟨l₁, k, l₂, he, hpre, hrel⟩
      refine ⟨e :: l₁, k, l₂, by rw [List.cons_append, ← he], ?_, ?_⟩
      · intro x hx
        rcases List.mem_cons.mp hx with rfl | hx
        · exact Bool.not_eq_true _ ▸ hm
        · exact hpre x hx
      · unfold release
        rw [if_neg hm, hrel]
        rfl

/-- C7: `release` preserves the set (and order) of cached instance
keys, never removes an entry, never drives a reference count below
zero, is the identity when no compatible instance is loaded, and
decrements exactly the instance found by the same first-match search
that `require`'s cache-hit step uses. -/
theorem c7_release_safe (l : LoadedCache) (name range : String)
    (h0 : ∀ e ∈ l, 0 ≤ e.2.refCount) :
    (release l name range).map Prod.fst = l.map Prod.fst
    ∧ (∀ e ∈ release l name range, 0 ≤ e.2.refCount)
    ∧ (findCompatibleLoaded l name range = none → release l name range = l)
    ∧ (∀ v, findCompatibleLoaded l name range = some v →
        ∃ l₁ k l₂, l = l₁ ++ (k, v) :: l₂
          ∧ (∀ e ∈ l₁, loadedMatches name range e = false)
          ∧ release l name range = l₁ ++ (k, decRef v) :: l₂) :=
  ⟨release_keys l name range, release_refCounts l name range h0,
   release_of_none l name range, fun v => release_of_some l name range v⟩

/-- Witness for C7 at a concrete two-entry cache. -/
theorem c7_witness : (release demoLoaded "x" "*").map Prod.fst = demoLoaded.map Prod.fst :=
  (c7_release_safe demoLoaded "x" "*" (by decide)).1

/-- C10: the loaded-instance search returns the first compatible entry
in the cache's insertion order; concretely, with `x@1.0.0` cached
before a higher-versioned compatible `x@2.0.0`, the search — and with
it `require`'s cache-hit step and `release` — picks the
earliest-cached `1.0.0` instance, not the highest-versioned one. -/
theorem c10_earliest_cached_wins :
    (∀ (name range : String) (l₁ l₂ : LoadedCache) (k : String) (v : LoadedModule),
        loadedMatches name range (k, v) = true →
        (∀ e ∈ l₁, loadedMatches name range e = false) →
        findCompatibleLoaded (l₁ ++ (k, v) :: l₂) name range = some v)
    ∧ findCompatibleLoaded demoLoaded "x" "*" = some demoV1
    ∧ 0 < compareVersions demoV2.descriptor.version demoV1.descriptor.version
    ∧ satisfies demoV2.descriptor.version "*" = true
    ∧ (requireHit demoLoaded "x" "*").1 = some demoV1.module
    ∧ (requireHit demoLoaded "x" "*").2 = [("x@1.0.0", incRef demoV1), ("x@2.0.0", demoV2)]
    ∧ release demoLoaded "x" "*" = [("x@1.0.0", decRef demoV1), ("x@2.0.0", demoV2)] := by
  refine ⟨?_, by decide, by decide, by decide, by decide, by decide, by decide⟩
  intro name range l₁ l₂ k v hv hpre
  induction l₁ with
  | nil =>
    unfold findCompatibleLoaded
    rw [List.nil_append,
      (List.find?_cons_of_pos l₂ hv :
        List.find? (loadedMatches name range) ((k, v) :: l₂) = some (k, v))]
    rfl
  | cons e rest ih =>
    unfold findCompatibleLoaded at ih ⊢
    have hne : ¬ loadedMatches name range e = true := by
      rw [hpre e (List.mem_cons_self _ _)]
      exact Bool.false_ne_true
    rw [List.cons_append,
      (List.find?_cons_of_neg (rest ++ (k, v) :: l₂) hne :
        List.find? (loadedMatches name range) (e :: (rest ++ (k, v) :: l₂))
          = List.find? (loadedMatches name range) (rest ++ (k, v) :: l₂))]
    exact ih (fun x hx => hpre x (List.mem_cons_of_mem _ hx))

/-- Witness for C10's general part at a singleton cache. -/
theorem c10_witness :
    findCompatibleLoaded ([] ++ ("y@1.0.0", demoW) :: []) "y" "*" = some demoW :=
  c10_earliest_cached_wins.1 "y" "*" [] [] "y@1.0.0" demoW (by decide) (by decide)

/-! ### Dependency sequencing inside loadModule -/

theorem loadDeps_of_ok (env : LoadEnv) (deps : List String)
    (h : firstDepFailure env deps = none) :
    loadDeps env deps = (deps.map (fun dep => LoadEvent.depRequire dep "*"), Except.ok ()) := by
  induction deps with
  | nil => rfl
  | cons dep rest ih =>
    unfold firstDepFailure at h
    unfold loadDeps
    cases hd : env.requireDep dep "*" with
    | error e => rw [hd] at h; simp at h
    | ok m =>
      rw [hd] at h
      simp only [Option.map_eq_none'] at h
      rw [ih h]
      rfl

theorem loadDeps_of_fail (env : LoadEnv) (deps : List String) (j : Nat) (msg : String)
    (h : firstDepFailure env deps = some (j, msg)) :
    loadDeps env deps
      = ((deps.take (j + 1)).map (fun dep => LoadEvent.depRequire dep "*"),
         Except.error msg) := by
  induction deps generalizing j with
  | nil => simp [firstDepFailure] at h
  | cons dep rest ih =>
    unfold firstDepFailure at h
    unfold loadDeps
    cases hd : env.requireDep dep "*" with
    | error e =>
      rw [hd] at h
      simp only [Option.some.injEq, Prod.mk.injEq] at h
      rw [← h.1, ← h.2]
      rfl
    | ok m =>
      rw [hd] at h
      rcases Option.map_eq_some'.mp h with ⟨⟨j', msg'⟩, hj, hmk⟩
      cases hmk
      rw [ih j' hj]
      rfl

theorem runResolvers_events (name ver : String)
    (rs : List (String → String → ResolverOutcome)) (i : Nat) :
    ∀ e ∈ (runResolvers name ver rs i).1, e.isDep = false := by
  induction rs generalizing i with
  | nil => intro e he; simp [runResolvers] at he
  | cons r rest ih =>
    intro e he
    unfold runResolvers at he
    cases hr : r name ver with
    | throws msg =>
      rw [hr] at he
      simp at he
      simp [he, LoadEvent.isDep]
    | value res =>
      cases res with
      | some m =>
        rw [hr] at he
        simp at he
        simp [he, LoadEvent.isDep]
      | none =>
        rw [hr] at he
        simp at he
        rcases he with rfl | he
        · simp [LoadEvent.isDep]
        · exact ih (i + 1) e he

theorem tryGlobal_events (env : LoadEnv) (name : String) (d : SharedModuleDescriptor)
    (tr : List LoadEvent) (h : ∀ e ∈ tr, e.isDep = false) :
    ∀ e ∈ (tryGlobal env name d tr).1, e.isDep = false := by
  have happ : ∀ e ∈ tr ++ [LoadEvent.globalLookup], e.isDep = false := by
    intro e he
    rcases List.mem_append.mp he with he | he
    · exact h e he
    · simp at he; simp [he, LoadEvent.isDep]
  rcases hg : d.globalName with - | g
  · simpa [tryGlobal, hg] using h
  · by_cases hw : env.windowDefined
    · rcases hv : env.globalVal g with - | m
      · simpa [tryGlobal, hg, hw, hv] using happ
      · simpa [tryGlobal, hg, hw, hv] using happ
    · simpa [tryGlobal, hg, hw] using h

theorem tryCdn_events (env : LoadEnv) (name : String) (d : SharedModuleDescriptor)
    (tr : List LoadEvent) (h : ∀ e ∈ tr, e.isDep = false) :
    ∀ e ∈ (tryCdn env name d tr).1, e.isDep = false := by
  have happ : ∀ e ∈ tr ++ [LoadEvent.cdnFetch], e.isDep = false := by
    intro e he
    rcases List.mem_append.mp he with he | he
    · exact h e he
    · simp at he; simp [he, LoadEvent.isDep]
  unfold tryCdn
  cases d.cdnUrl with
  | none => exact tryGlobal_events env name d tr h
  | some u =>
    cases env.cdnLoad d with
    | ok m => exact happ
    | error e => exact tryGlobal_events env name d _ happ

theorem tryLocal_events (env : LoadEnv) (name : String) (d : SharedModuleDescriptor)
    (tr : List LoadEvent) (h : ∀ e ∈ tr, e.isDep = false) :
    ∀ e ∈ (tryLocal env name d tr).1, e.isDep = false := by
  have happ : ∀ e ∈ tr ++ [LoadEvent.localFetch], e.isDep = false := by
    intro e he
    rcases List.mem_append.mp he with he | he
    · exact h e he
    · simp at he; simp [he, LoadEvent.isDep]
  unfold tryLocal
  cases d.localPath with
  | none => exact tryCdn_events env name d tr h
  | some p =>
    cases env.localLoad d with
    | ok m => exact happ
    | error e => exact tryCdn_events env name d _ happ

theorem trySources_events (env : LoadEnv) (name : String) (d : SharedModuleDescriptor) :
    ∀ e ∈ (trySources env name d).1, e.isDep = false := by
  unfold trySources
  have hres := runResolvers_events name d.version env.resolvers 0
  cases hr : (runResolvers name d.version env.resolvers 0) with
  | mk tr res =>
    rw [hr] at hres
    cases res with
    | some r => exact hres
    | none => exact tryLocal_events env name d tr hres

/-- C4: when a compatible descriptor is found, its listed dependencies
are required — with range `*` — strictly sequentially in list order
before any source of the descriptor's own chain is attempted: if every
dependency `require` succeeds, the trace is exactly the dependency
requires in list order followed by source events only, and the load's
result is that of the source chain; if the `j`-th dependency `require`
fails, the trace stops at that dependency (later dependencies are never
started), no source is attempted, and the load fails with that
dependency's error. -/
theorem c4_dependencies_first (env : LoadEnv) (st : DescStore) (name range : String)
    (d : SharedModuleDescriptor)
    (h : findCompatibleDescriptor st name range = some d) :
    (firstDepFailure env (d.dependencies.getD []) = none →
        loadModuleT env st name range
          = ((d.dependencies.getD []).map (fun dep => LoadEvent.depRequire dep "*")
               ++ (trySources env name d).1,
             (trySources env name d).2)
        ∧ ∀ e ∈ (trySources env name d).1, e.isDep = false)
    ∧ (∀ j msg, firstDepFailure env (d.dependencies.getD []) = some (j, msg) →
        loadModuleT env st name range
          = (((d.dependencies.getD []).take (j + 1)).map
               (fun dep => LoadEvent.depRequire dep "*"),
             Except.error msg)) := by
  constructor
  · intro hnone
    refine ⟨?_, trySources_events env name d⟩
    simp only [loadModuleT, h]
    cases hdep : d.dependencies with
    | none => simp
    | some deps =>
      rw [hdep] at hnone
      simp only [Option.getD_some] at hnone ⊢
      rw [loadDeps_of_ok env deps hnone]
  · intro j msg hj
    simp only [loadModuleT, h]
    cases hdep : d.dependencies with
    | none =>
      rw [hdep] at hj
      simp [firstDepFailure, Option.getD_none] at hj
    | some deps =>
      rw [hdep] at hj
      simp only [Option.getD_some] at hj ⊢
      rw [loadDeps_of_fail env deps j msg hj]

/-- Witness for C4 at a dependency list whose second entry fails:
the trace stops after the two dependency requires and the load fails
with the dependency's error. -/
theorem c4_witness :
    loadModuleT env4 st4 "m" "*"
      = ([LoadEvent.depRequire "a" "*", LoadEvent.depRequire "b" "*"],
         Except.error "dep b failed") :=
  ((c4_dependencies_first env4 st4 "m" "*" d4 (by decide)).2 1 "dep b failed"
    (by decide)).trans rfl

/-! ### Source-chain outcomes -/

theorem runResolvers_cases (name ver : String)
    (rs : List (String → String → ResolverOutcome)) (i : Nat)
    (hnt : ∀ r ∈ rs, resolverIsThrow (r name ver) = false) :
    ((runResolvers name ver rs i).2 = none
        ∧ rs.all (fun r => r name ver == ResolverOutcome.value none) = true)
    ∨ (∃ m, (runResolvers name ver rs i).2 = some (Except.ok m)
        ∧ rs.all (fun r => r name ver == ResolverOutcome.value none) = false) := by
  induction rs generalizing i with
  | nil => exact Or.inl ⟨rfl, rfl⟩
  | cons r rest ih =>
    have hr0 : resolverIsThrow (r name ver) = false := hnt r (List.mem_cons_self _ _)
    cases hr : r name ver with
    | throws msg => rw [hr] at hr0; simp [resolverIsThrow] at hr0
    | value res =>
      cases res with
      | some m =>
        refine Or.inr ⟨m, ?_, ?_⟩
        · simp [runResolvers, hr]
        · simp [List.all_cons, hr]
      | none =>
        have hcons : (runResolvers name ver (r :: rest) i).2
            = (runResolvers name ver rest (i + 1)).2 := by
          cases hp : runResolvers name ver rest (i + 1) with
          | mk tr res => simp [runResolvers, hr, hp]
        have hall : ((r :: rest).all (fun x => x name ver == ResolverOutcome.value none))
            = rest.all (fun x => x name ver == ResolverOutcome.value none) := by
          simp [List.all_cons, hr]
        rcases ih (i + 1) (fun x hx => hnt x (List.mem_cons_of_mem _ hx)) with
          ⟨h1, h2⟩ | ⟨m, h1, h2⟩
        · exact Or.inl ⟨hcons.trans h1, hall.trans h2⟩
        · exact Or.inr ⟨m, hcons.trans h1, hall.trans h2⟩

theorem tryGlobal_snd (env : LoadEnv) (name : String) (d : SharedModuleDescriptor)
    (tr : List LoadEvent) :
    (globFailB env d = true
        ∧ (tryGlobal env name d tr).2 = Except.error (couldNotLoadMsg name d))
    ∨ (globFailB env d = false ∧ ∃ m, (tryGlobal env name d tr).2 = Except.ok m) := by
  rcases hg : d.globalName with - | g
  · exact Or.inl ⟨by simp [globFailB, hg], by simp [tryGlobal, hg]⟩
  · cases hw : env.windowDefined with
    | false => exact Or.inl ⟨by simp [globFailB, hg, hw], by simp [tryGlobal, hg, hw]⟩
    | true =>
      rcases hv : env.globalVal g with - | m
      · exact Or.inl ⟨by simp [globFailB, hg, hw, hv], by simp [tryGlobal, hg, hw, hv]⟩
      · exact Or.inr ⟨by simp [globFailB, hg, hw, hv], m, by simp [tryGlobal, hg, hw, hv]⟩

theorem tryCdn_snd (env : LoadEnv) (name : String) (d : SharedModuleDescriptor)
    (tr : List LoadEvent) :
    (cdnFailB env d = true ∧ globFailB env d = true
        ∧ (tryCdn env name d tr).2 = Except.error (couldNotLoadMsg name d))
    ∨ ((cdnFailB env d = false ∨ globFailB env d = false)
        ∧ ∃ m, (tryCdn env name d tr).2 = Except.ok m) := by
  rcases hc : d.cdnUrl with - | u
  · have hcf : cdnFailB env d = true := by simp [cdnFailB, hc]
    have ht : tryCdn env name d tr = tryGlobal env name d tr := by simp [tryCdn, hc]
    rcases tryGlobal_snd env name d tr with ⟨h1, h2⟩ | ⟨h1, m, h2⟩
    · exact Or.inl ⟨hcf, h1, ht ▸ h2⟩
    · exact Or.inr ⟨Or.inr h1, m, ht ▸ h2⟩
  · cases hl : env.cdnLoad d with
    | ok m =>
      refine Or.inr ⟨Or.inl ?_, m, by simp [tryCdn, hc, hl]⟩
      simp [cdnFailB, hc, hl, exceptIsError]
    | error e =>
      have hcf : cdnFailB env d = true := by simp [cdnFailB, hc, hl, exceptIsError]
      have ht : tryCdn env name d tr = tryGlobal env name d (tr ++ [LoadEvent.cdnFetch]) := by
        simp [tryCdn, hc, hl]
      rcases tryGlobal_snd env name d (tr ++ [LoadEvent.cdnFetch]) with ⟨h1, h2⟩ | ⟨h1, m, h2⟩
      · exact Or.inl ⟨hcf, h1, ht ▸ h2⟩
      · exact Or.inr ⟨Or.inr h1, m, ht ▸ h2⟩

theorem tryLocal_snd (env : LoadEnv) (name : String) (d : SharedModuleDescriptor)
    (tr : List LoadEvent) :
    (localFailB env d = true ∧ cdnFailB env d = true ∧ globFailB env d = true
        ∧ (tryLocal env name d tr).2 = Except.error (couldNotLoadMsg name d))
    ∨ ((localFailB env d = false ∨ cdnFailB env d = false ∨ globFailB env d = false)
        ∧ ∃ m, (tryLocal env name d tr).2 = Except.ok m) := by
  rcases hp : d.localPath with - | p
  · have hlf : localFailB env d = true := by simp [localFailB, hp]
    have ht : tryLocal env name d tr = tryCdn env name d tr := by simp [tryLocal, hp]
    rcases tryCdn_snd env name d tr with ⟨h1, h2, h3⟩ | ⟨h1, m, h2⟩
    · exact Or.inl ⟨hlf, h1, h2, ht ▸ h3⟩
    · exact Or.inr ⟨Or.inr h1, m, ht ▸ h2⟩
  · cases hl : env.localLoad d with
    | ok m =>
      refine Or.inr ⟨Or.inl ?_, m, by simp [tryLocal, hp, hl]⟩
      simp [localFailB, hp, hl, exceptIsError]
    | error e =>
      have hlf : localFailB env d = true := by simp [localFailB, hp, hl, exceptIsError]
      have ht : tryLocal env name d tr = tryCdn env name d (tr ++ [LoadEvent.localFetch]) := by
        simp [tryLocal, hp, hl]
      rcases tryCdn_snd env name d (tr ++ [LoadEvent.localFetch]) with ⟨h1, h2, h3⟩ | ⟨h1, m, h2⟩
      · exact Or.inl ⟨hlf, h1, h2, ht ▸ h3⟩
      · exact Or.inr ⟨Or.inr h1, m, ht ▸ h2⟩

theorem trySources_snd (env : LoadEnv) (name : String) (d : SharedModuleDescriptor)
    (hnt : ∀ r ∈ env.resolvers, resolverIsThrow (r name d.version) = false) :
    (resolversNoneB env name d = true ∧ localFailB env d = true ∧ cdnFailB env d = true
        ∧ globFailB env d = true
        ∧ (trySources env name d).2 = Except.error (couldNotLoadMsg name d))
    ∨ ((resolversNoneB env name d = false ∨ localFailB env d = false
          ∨ cdnFailB env d = false ∨ globFailB env d = false)
        ∧ ∃ m, (trySources env name d).2 = Except.ok m) := by
  cases hp : runResolvers name d.version env.resolvers 0 with
  | mk tr res =>
    have hrc := runResolvers_cases name d.version env.resolvers 0 hnt
    rw [hp] at hrc
    rcases hrc with ⟨h1, h2⟩ | ⟨m, h1, h2⟩
    · simp only at h1
      subst h1
      have ht : trySources env name d = tryLocal env name d tr := by
        simp [trySources, hp]
      have hrn : resolversNoneB env name d = true := h2
      rcases tryLocal_snd env name d tr with ⟨g1, g2, g3, g4⟩ | ⟨g1, m, g2⟩
      · exact Or.inl ⟨hrn, g1, g2, g3, ht ▸ g4⟩
      · rcases g1 with g1 | g1 | g1
        · exact Or.inr ⟨Or.inr (Or.inl g1), m, ht ▸ g2⟩
        · exact Or.inr ⟨Or.inr (Or.inr (Or.inl g1)), m, ht ▸ g2⟩
        · exact Or.inr ⟨Or.inr (Or.inr (Or.inr g1)), m, ht ▸ g2⟩
    · simp only at h1
      subst h1
      have ht : (trySources env name d).2 = Except.ok m := by
        simp [trySources, hp]
      exact Or.inr ⟨Or.inl h2, m, ht⟩

/-- C5 amended: a resolver that settles falsy, and a failing local or
CDN fetch, are non-fatal — the chain proceeds — but only on runs where
no resolver throws; the load fails with the terminal
`could not load shared module` error exactly when every available
source is exhausted, and otherwise some source yields the module.  (The
claim as stated, which also lets a throwing resolver fall through to
the next source, is refuted separately: the resolver loop has no
try/catch.) -/
theorem c5_per_source_failures (env : LoadEnv) (name : String) (d : SharedModuleDescriptor)
    (hnt : ∀ r ∈ env.resolvers, resolverIsThrow (r name d.version) = false) :
    ((trySources env name d).2 = Except.error (couldNotLoadMsg name d)
        ↔ allSourcesFailB env name d = true)
    ∧ ((∃ m, (trySources env name d).2 = Except.ok m)
        ↔ allSourcesFailB env name d = false) := by
  have hiff : allSourcesFailB env name d = true
      ↔ (resolversNoneB env name d = true ∧ localFailB env d = true
          ∧ cdnFailB env d = true ∧ globFailB env d = true) := by
    simp [allSourcesFailB, Bool.and_eq_true, and_assoc]
  have hiff' : allSourcesFailB env name d = false
      ↔ (resolversNoneB env name d = false ∨ localFailB env d = false
          ∨ cdnFailB env d = false ∨ globFailB env d = false) := by
    rw [← Bool.not_eq_true, hiff, not_and_or, not_and_or, not_and_or,
      Bool.not_eq_true, Bool.not_eq_true, Bool.not_eq_true, Bool.not_eq_true]
  rcases trySources_snd env name d hnt with ⟨h1, h2, h3, h4, herr⟩ | ⟨hor, m, hok⟩
  · constructor
    · exact iff_of_true herr (hiff.mpr ⟨h1, h2, h3, h4⟩)
    · refine iff_of_false ?_ ?_
      · rintro ⟨m, hm⟩
        rw [herr] at hm
        cases hm
      · rw [hiff']
        rintro (h | h | h | h)
        · rw [h1] at h; cases h
        · rw [h2] at h; cases h
        · rw [h3] at h; cases h
        · rw [h4] at h; cases h
  · constructor
    · refine iff_of_false ?_ ?_
      · intro hm
        rw [hok] at hm
        cases hm
      · rw [← Bool.not_eq_false, hiff']
        intro hcon
        exact hcon hor
    · exact iff_of_true ⟨m, hok⟩ (hiff'.mpr hor)

/-- Counterexample to C5 as stated: with a single registered resolver
whose promise rejects and a local bundle that would load successfully,
the load does not proceed to the local source — the resolver's
exception escapes the (uncaught) loop of lines 107-110 and aborts the
load. -/
theorem c5_counterexample :
    (trySources env5 "m" d5).2 = Except.error "resolver boom"
    ∧ env5.localLoad d5 = Except.ok 7
    ∧ d5.localPath.isSome = true := by
  refine ⟨rfl, rfl, rfl⟩

/-- Witness for C5's amended theorem at an environment whose one
resolver settles falsy and whose descriptor carries no sources: the
chain is exhausted and the terminal error is produced. -/
theorem c5_witness :
    (trySources env5w "m" d5w).2 = Except.error "Could not load shared module m@1.0.0" :=
  ((c5_per_source_failures env5w "m" d5w (by decide)).1).mpr (by decide)

/-! ### The concurrent-require scenario -/

/-- Counterexample to C3 as stated: two concurrent `require("x", "*")`
calls issued before either resolves share one pending load (the second
caller observes the pending key and is handed the same promise), make
exactly one source-loading attempt, and both receive the handle 42 —
but the cached instance's reference count is 1, not 2: the second
caller returns from line 57 without ever incrementing the count, which
only the cache-hit path of lines 51-55 does. -/
theorem c3_counterexample :
    c3A.1 = RequireOutcome.startedLoad "x@*"
    ∧ c3B.1 = RequireOutcome.awaitPending "x@*"
    ∧ c3Final.attempts = 1
    ∧ c3ResultA = c3ResultB
    ∧ c3RefCountX = 1
    ∧ ¬ c3RefCountX = 2 := by
  refine ⟨by decide, by decide, by decide, rfl, by decide, by decide⟩

/-- C3 amended: the two concurrent callers share one load and one
handle, exactly one source-loading attempt is made, and the cached
instance's reference count ends at 1 — the deduplicated second caller
does not contribute to the count. -/
theorem c3_amended_dedup :
    c3A.1 = RequireOutcome.startedLoad "x@*"
    ∧ c3B.1 = RequireOutcome.awaitPending "x@*"
    ∧ c3Final.attempts = 1
    ∧ c3ResultA = c3ResultB
    ∧ c3RefCountX = 1
    ∧ c3Final.loadingKeys = [] := by
  refine ⟨by decide, by decide, by decide, rfl, by decide, by decide⟩

/-! ### Batch requires -/

/-- C6: `requireAll` on a batch with one failing optional request and
one succeeding required request returns, without failing, the map
holding exactly the successful entry; and in general, whenever any
non-optional request of the batch fails, `requireAll` fails as a
whole. -/
theorem c6_requireAll_optional :
    requireAll oracle6 [⟨"x", "*", true⟩, ⟨"y", "*", false⟩] [] = Except.ok [("y", 5)]
    ∧ ∀ (oracle : String → String → Except String Nat) (reqs : List ModuleRequest)
        (acc : List (String × Nat)) (r : ModuleRequest),
        r ∈ reqs → r.optionalFlag = false →
        exceptIsError (oracle r.name r.versionRange) = true →
        exceptIsOkL (requireAll oracle reqs acc) = false := by
  refine ⟨rfl, ?_⟩
  intro oracle reqs
  induction reqs with
  | nil => intro acc r hr; simp at hr
  | cons r0 rest ih =>
    intro acc r hr hopt herr
    unfold requireAll
    cases ho : oracle r0.name r0.versionRange with
    | ok m =>
      dsimp only
      rcases List.mem_cons.mp hr with rfl | hr
      · rw [ho] at herr
        simp [exceptIsError] at herr
      · exact ih (setNat acc r0.name m) r hr hopt herr
    | error e =>
      dsimp only
      by_cases hopt0 : r0.optionalFlag = true
      · rw [if_pos hopt0]
        rcases List.mem_cons.mp hr with rfl | hr
        · rw [hopt] at hopt0; cases hopt0
        · exact ih acc r hr hopt herr
      · rw [if_neg hopt0]
        rfl

/-- Witness for C6's general part: a singleton batch whose one request
is non-optional and fails. -/
theorem c6_witness :
    exceptIsOkL (requireAll oracle6 [⟨"x", "*", false⟩] []) = false :=
  c6_requireAll_optional.2 oracle6 [⟨"x", "*", false⟩] [] ⟨"x", "*", false⟩
    (by decide) rfl (by decide)

/-! ### Import rewriting and global binding names -/

theorem replaceScan_of_no_match (m : List Char → Option (List Char × List Char))
    (l : List Char) (h : existsMatch m l = false) :
    ∀ fuel, replaceScan m fuel l = l := by
  induction l with
  | nil => intro fuel; cases fuel <;> rfl
  | cons c cs ih =>
    intro fuel
    unfold existsMatch at h
    rw [Bool.or_eq_false_iff] at h
    have hm : m (c :: cs) = none := by
      rcases hv : m (c :: cs) with - | v
      · rfl
      · rw [hv] at h; simp at h
    cases fuel with
    | zero => rfl
    | succ fuel =>
      unfold replaceScan
      rw [hm]
      exact congrArg (c :: ·) (ih h.2 fuel)

theorem existsMatch_map {α β : Type} (f : α → β) (m : List Char → Option α)
    (l : List Char) :
    existsMatch (fun l => (m l).map f) l = existsMatch m l := by
  induction l with
  | nil => rfl
  | cons c cs ih =>
    unfold existsMatch
    rcases hv : m (c :: cs) with - | v <;> simp [hv, ih]

theorem rewrite_unchanged (name gk src : String)
    (h : hasImportMatch name.toList src.toList = false) :
    rewriteForModule name gk src = src := by
  unfold hasImportMatch at h
  rw [Bool.or_eq_false_iff, Bool.or_eq_false_iff, Bool.or_eq_false_iff] at h
  obtain ⟨⟨⟨h1, h2⟩, h3⟩, h4⟩ := h
  unfold rewriteForModule
  dsimp only
  have e1 := replaceScan_of_no_match
    (fun l => Option.map (fun p => (renderDefault gk.toList p.1, p.2))
      (matchDefaultImport name.toList l))
    src.toList ((existsMatch_map _ _ _).trans h1) src.toList.length
  rw [e1]
  have e2 := replaceScan_of_no_match
    (fun l => Option.map (fun p => (renderNamed gk.toList p.1, p.2))
      (matchNamedImport name.toList l))
    src.toList ((existsMatch_map _ _ _).trans h2) src.toList.length
  rw [e2]
  have e3 := replaceScan_of_no_match
    (fun l => Option.map (fun p => (renderNamespace gk.toList p.1, p.2))
      (matchNamespaceImport name.toList l))
    src.toList ((existsMatch_map _ _ _).trans h3) src.toList.length
  rw [e3]
  have e4 := replaceScan_of_no_match
    (fun l => Option.map (fun p => (renderCombined gk.toList p.1.1 p.1.2, p.2))
      (matchCombinedImport name.toList l))
    src.toList ((existsMatch_map _ _ _).trans h4) src.toList.length
  rw [e4]
  obtain ⟨data⟩ := src
  rfl

/-- C8 amended: for a module `pkg` installed at its derived global
slot, the default-import line is rewritten to a declaration reading
`window.G.default || window.G`, so it evaluates to the slot's `default`
export when that property is present and truthy and to the slot itself
otherwise (JavaScript `||` semantics); the named-import line is
rewritten to a destructuring declaration over the slot making the
listed members read off the handle; and source text containing no
occurrence of the four quote-delimited import patterns for the module
name is left unchanged.  (The patterns also fire on text that is not a
well-formed import statement, such as a mismatched quote pair — refuted
separately.) -/
theorem c8_rewrite_correct :
    rewriteForModule "pkg" (globalKey "pkg") "import Foo from \"pkg\";"
      = "const Foo = window.__PYXIS_SHARED_PKG__.default || window.__PYXIS_SHARED_PKG__;"
    ∧ rewriteForModule "pkg" (globalKey "pkg") "import \x7b a, b \x7d from \"pkg\";"
      = "const \x7b a, b \x7d = window.__PYXIS_SHARED_PKG__;"
    ∧ (∀ g : JSVal, truthy (getProp g "default") = true →
        evalDefaultBinding g = getProp g "default")
    ∧ (∀ g : JSVal, truthy (getProp g "default") = false →
        evalDefaultBinding g = g)
    ∧ (∀ g : JSVal, evalDestructure g ["a", "b"]
        = [("a", getProp g "a"), ("b", getProp g "b")])
    ∧ (∀ name gk src : String, hasImportMatch name.toList src.toList = false →
        rewriteForModule name gk src = src) := by
  refine ⟨by decide, by decide, ?_, ?_, fun g => rfl, rewrite_unchanged⟩
  · intro g hg
    unfold evalDefaultBinding jsOr
    rw [if_pos hg]
  · intro g hg
    unfold evalDefaultBinding jsOr
    rw [if_neg (by simp [hg])]

/-- Witness for C8's unchanged-text part at a source with no import
pattern. -/
theorem c8_witness : rewriteForModule "zzz" "G" "const x = 1;" = "const x = 1;" :=
  c8_rewrite_correct.2.2.2.2.2 "zzz" "G" "const x = 1;" (by decide)

/-- Counterexample to C8 as stated: the text
`import Foo from "pkg\x27;` is not a syntactically well-formed import
statement (its quotes do not match), yet the rewrite changes it — the
quote class of the pattern matches each quote independently.  So text
other than literal import statements naming `pkg` is not always left
unchanged. -/
theorem c8_counterexample :
    rewriteForModule "pkg" (globalKey "pkg") "import Foo from \"pkg\x27;"
      = "const Foo = window.__PYXIS_SHARED_PKG__.default || window.__PYXIS_SHARED_PKG__;"
    ∧ rewriteForModule "pkg" (globalKey "pkg") "import Foo from \"pkg\x27;"
      ≠ "import Foo from \"pkg\x27;" := by
  refine ⟨by decide, by decide⟩

/-- C9 amended: the global binding name is a deterministic function of
the module name, but it is injective only up to the normalization of
line 238 — two names collide exactly when replacing their
non-alphanumeric characters by `_` and uppercasing makes them equal, so
distinct resolved names can collide. -/
theorem c9_globalKey_collisions (n₁ n₂ : String) :
    globalKey n₁ = globalKey n₂ ↔ normalizeModName n₁ = normalizeModName n₂ := by
  constructor
  · intro h
    unfold globalKey at h
    have hdata : "__PYXIS_SHARED_".toList ++ (normalizeModName n₁).toList ++ "__".toList
        = "__PYXIS_SHARED_".toList ++ (normalizeModName n₂).toList ++ "__".toList := by
      have h' := congrArg String.toList h
      simpa using h'
    rw [List.append_assoc, List.append_assoc] at hdata
    have hmid := List.append_cancel_right (List.append_cancel_left hdata)
    exact String.ext hmid
  · intro h
    unfold globalKey
    rw [h]

/-- Witness for C9's amended equivalence: `a-b` and `a_b` normalize
identically, so their derived binding names coincide. -/
theorem c9_witness : globalKey "a-b" = globalKey "a_b" :=
  (c9_globalKey_collisions "a-b" "a_b").mpr (by decide)

/-- Counterexample to C9 as stated: `react-dom` and `react.dom` are
distinct module names whose derived global binding names are equal —
the derivation is not collision-free over distinct names. -/
theorem c9_counterexample :
    globalKey "react-dom" = globalKey "react.dom"
    ∧ "react-dom" ≠ "react.dom" := by
  refine ⟨by decide, by decide⟩

end SharedModules
